import Mathlib

/-!
Shallow embedding of the ingestion-pipeline core of the repository
(redis-postgres-pipeline: src/redis_utils.py, src/pipeline.py,
src/postgres_utils.py).

Redis structures are modelled as explicit state: a list-based job queue with
its lifetime counter key, the deduplication hash with its pending expiry
deadline, and the backpressure counters.  Time is passed explicitly to the
operations that read the clock.  The Postgres side is modelled as the staging
and production row lists plus a refresh counter for the materialized views.
-/

/-- State of a Redis list used as a job queue (`RedisQueue`): `items` is the
list with its head at the Redis left end (the LPUSH side), `counter` is the
value of the `<queue>:counter` key.  Redis INCR/DECR treat a missing key as 0
and the value may go negative, hence `Int` with 0 for the fresh state. -/
structure RedisQueueState (α : Type) where
  items : List α
  counter : Int
deriving DecidableEq

/-- `RedisQueue.push`: LPUSH one job, then INCR the counter key. -/
def RedisQueue.push {α : Type} (job : α) (s : RedisQueueState α) : RedisQueueState α :=
  { items := job :: s.items, counter := s.counter + 1 }

/-- `RedisQueue.push_batch`: early return on an empty list, otherwise one
pipelined `LPUSH key j1 .. jn` (each argument is pushed to the head in turn,
so the block ends up reversed at the head) plus `INCRBY n` on the counter. -/
def RedisQueue.push_batch {α : Type} (jobs : List α) (s : RedisQueueState α) :
    RedisQueueState α :=
  if jobs.isEmpty then s
  else { items := jobs.reverse ++ s.items, counter := s.counter + (jobs.length : Int) }

/-- `RedisQueue.pop`: BRPOP takes from the tail; on success the counter key is
DECRemented; on timeout (empty list) the state is unchanged and `none` is
returned. -/
def RedisQueue.pop {α : Type} (s : RedisQueueState α) : Option α × RedisQueueState α :=
  match s.items.getLast? with
  | none => (none, s)
  | some j => (some j, { items := s.items.dropLast, counter := s.counter - 1 })

/-- `RedisQueue.size`: LLEN. -/
def RedisQueue.size {α : Type} (s : RedisQueueState α) : Nat := s.items.length

/-- The drain loop at the top of `process_batch`: call `pop` up to `fuel`
times, stopping at the first timeout, collecting the jobs in pop order. -/
def RedisQueue.drain {α : Type} : Nat → RedisQueueState α → List α × RedisQueueState α
  | 0, s => ([], s)
  | fuel + 1, s =>
    match RedisQueue.pop s with
    | (none, s1) => ([], s1)
    | (some j, s1) =>
      let r := RedisQueue.drain fuel s1
      (j :: r.1, r.2)

/-- State of the `RedisDeduplicator` hash: the field map
`record_id → first_seen_timestamp` (an association list with distinct keys;
Redis hash field order is not observable) plus the key's pending expiry
deadline (`none` while no TTL has been set on the hash). -/
structure DedupState where
  window : List (String × Nat)
  expireAt : Option Nat
deriving DecidableEq

/-- Redis HSETNX: create the field only when it is absent; the reply is `true`
exactly when the field was newly created. -/
def hsetnx (w : List (String × Nat)) (k : String) (v : Nat) :
    Bool × List (String × Nat) :=
  if (w.lookup k).isSome then (false, w) else (true, (k, v) :: w)

/-- `RedisDeduplicator.is_duplicate`: HEXISTS. -/
def is_duplicate (d : DedupState) (rid : String) : Bool :=
  (d.window.lookup rid).isSome

/-- `RedisDeduplicator.mark_seen`: HSETNX the id at the current timestamp,
then EXPIRE the whole hash when HLEN equals 1 after the insert. -/
def mark_seen (now ttl : Nat) (rid : String) (d : DedupState) : Bool × DedupState :=
  let r := hsetnx d.window rid now
  (r.1, { window := r.2,
          expireAt := if r.2.length = 1 then some (now + ttl) else d.expireAt })

/-- The pipelined HSETNX loop inside `RedisDeduplicator.mark_batch`, returning
the sum of the HSETNX replies (the count of newly created fields). -/
def markAll (now : Nat) : List String → List (String × Nat) → Nat × List (String × Nat)
  | [], w => (0, w)
  | rid :: rest, w =>
    let r := hsetnx w rid now
    let r2 := markAll now rest r.2
    ((if r.1 then 1 else 0) + r2.1, r2.2)

/-- `RedisDeduplicator.mark_batch`: early return 0 on an empty list; otherwise
HSETNX every id and then EXPIRE the hash, so the TTL is reset on every call. -/
def mark_batch (now ttl : Nat) (ids : List String) (d : DedupState) :
    Nat × DedupState :=
  if ids.isEmpty then (0, d)
  else
    let r := markAll now ids d.window
    (r.1, { window := r.2, expireAt := some (now + ttl) })

/-- `RedisDeduplicator.count_seen`: HLEN. -/
def count_seen (d : DedupState) : Nat := d.window.length

/-- State of the `RedisBackpressure` counters: one Redis string key per queue
name; the association list records the most recent write first. -/
abbrev BackpressureState : Type := List (String × Int)

/-- `RedisBackpressure.get_depth`: GET on the per-queue key, with a missing
key read as 0. -/
def get_depth (bp : BackpressureState) (q : String) : Int :=
  (List.lookup q bp).getD 0

/-- `RedisBackpressure.increment`: INCRBY on the per-queue key. -/
def bpIncrement (bp : BackpressureState) (q : String) (amount : Int) :
    BackpressureState :=
  (q, get_depth bp q + amount) :: bp

/-- `RedisBackpressure.decrement`: DECRBY on the per-queue key. -/
def bpDecrement (bp : BackpressureState) (q : String) (amount : Int) :
    BackpressureState :=
  (q, get_depth bp q - amount) :: bp

/-- `RedisBackpressure.should_throttle`: compare the tracked depth with the
threshold. -/
def should_throttle (bp : BackpressureState) (q : String) (maxDepth : Int) : Bool :=
  decide (get_depth bp q ≥ maxDepth)

/-- An order record as produced by the data generator: the dedup identifier
and the reference fields the worker resolves through the lookup cache; the
remaining payload is carried opaquely. -/
structure Order where
  order_id : String
  product_id : String
  currency : String
  zip_code : String
  payload : String
deriving DecidableEq

/-- The Redis lookup-cache contents relevant to enrichment: the `product:*`,
`currency:*` and `zipcode:*` entries.  Currency rates are carried as integers:
the claims depend only on presence and Python truthiness of the rate, not on
its numeric type. -/
structure Caches where
  products : List (String × String)
  currencies : List (String × Int)
  zips : List (String × String)

/-- Events published on the `pipeline:events` pub/sub channel. -/
inductive Event where
  | batch_staged (count : Nat)
  | batch_promoted (count : Nat)
deriving DecidableEq

/-- Postgres-side state: the staging table rows, the production table rows,
and how many times the materialized views have been refreshed. -/
structure PgState where
  staging : List Order
  production : List Order
  viewRefreshes : Nat
deriving DecidableEq

/-- The full pipeline state operated on by `PipelineOrchestrator`. -/
structure PipelineState where
  ingestionQueue : RedisQueueState Order
  dedup : DedupState
  backpressure : BackpressureState
  events : List Event
  pg : PgState
deriving DecidableEq

/-- The statistics dictionary returned by `ingest_orders`. -/
structure IngestStats where
  total : Nat
  new : Nat
  duplicates : Nat
  queued : Nat
deriving DecidableEq

/-- Result of the per-order loop in `ingest_orders`. -/
structure IngestLoopResult where
  newOrders : List Order
  dedup : DedupState
  newCount : Nat
  dupCount : Nat

/-- The per-order loop of `ingest_orders`: mark each order id seen, collect
the new orders in arrival order, and count new and duplicate orders. -/
def ingestLoop (now ttl : Nat) : List Order → DedupState → IngestLoopResult
  | [], d => ⟨[], d, 0, 0⟩
  | o :: rest, d =>
    let r := mark_seen now ttl o.order_id d
    let t := ingestLoop now ttl rest r.2
    if r.1 then ⟨o :: t.newOrders, t.dedup, t.newCount + 1, t.dupCount⟩
    else ⟨t.newOrders, t.dedup, t.newCount, t.dupCount + 1⟩

/-- `PipelineOrchestrator.ingest_orders` (pipeline.py, lines 109-157): reject
the whole call under backpressure, otherwise deduplicate each order, push the
batch of new orders, and increment the backpressure counter by its size. -/
def ingest_orders (now ttl : Nat) (maxDepth : Int) (orders : List Order)
    (s : PipelineState) : IngestStats × PipelineState :=
  let stats0 : IngestStats :=
    { total := orders.length, new := 0, duplicates := 0, queued := 0 }
  if should_throttle s.backpressure "ingestion" maxDepth then (stats0, s)
  else
    let t := ingestLoop now ttl orders s.dedup
    if t.newOrders.isEmpty then
      ({ stats0 with new := t.newCount, duplicates := t.dupCount },
       { s with dedup := t.dedup })
    else
      ({ total := orders.length, new := t.newCount, duplicates := t.dupCount,
         queued := t.newOrders.length },
       { s with dedup := t.dedup,
                ingestionQueue := RedisQueue.push_batch t.newOrders s.ingestionQueue,
                backpressure :=
                  bpIncrement s.backpressure "ingestion" (t.newOrders.length : Int) })

/-- The per-row enrichment step of `process_batch`: resolve product, currency
and zip code through the cache; a missing entry — or a falsy (zero) currency
rate, per the `all([...])` truthiness test — makes the row an enrichment
error (`none`).  The enriched row carries the original order fields, which the
code copies through unchanged. -/
def enrich_order (c : Caches) (o : Order) : Option Order :=
  match List.lookup o.product_id c.products, List.lookup o.currency c.currencies,
        List.lookup o.zip_code c.zips with
  | some _, some rate, some _ => if rate = 0 then none else some o
  | _, _, _ => none

/-- The statistics dictionary returned by `process_batch`. -/
structure BatchStats where
  processed : Nat
  enriched : Nat
  staged : Nat
  errors : Nat
deriving DecidableEq

/-- The enrichment loop of `process_batch`: the enriched rows in order, the
enriched count, and the enrichment-error count. -/
def enrichLoop (c : Caches) : List Order → List Order × Nat × Nat
  | [] => ([], 0, 0)
  | o :: rest =>
    let t := enrichLoop c rest
    match enrich_order c o with
    | some r => (r :: t.1, t.2.1 + 1, t.2.2)
    | none => (t.1, t.2.1, t.2.2 + 1)

/-- `PipelineOrchestrator.process_batch` (pipeline.py, lines 159-267): drain
up to `batchSize` jobs, decrement backpressure by the drained count, enrich
through the cache, and bulk-insert the enriched rows into staging in one COPY.
`stagingFails` models whether that COPY raises; on failure the whole batch of
enriched rows is added to the error count and nothing is staged. -/
def process_batch (batchSize : Nat) (c : Caches) (stagingFails : Bool)
    (s : PipelineState) : BatchStats × PipelineState :=
  let dr := RedisQueue.drain batchSize s.ingestionQueue
  let batch := dr.1
  let s0 := { s with ingestionQueue := dr.2 }
  if batch.isEmpty then
    ({ processed := batch.length, enriched := 0, staged := 0, errors := 0 }, s0)
  else
    let s1 := { s0 with
                backpressure := bpDecrement s0.backpressure "ingestion" (batch.length : Int) }
    let e := enrichLoop c batch
    if e.1.isEmpty then
      ({ processed := batch.length, enriched := e.2.1, staged := 0, errors := e.2.2 }, s1)
    else if stagingFails then
      ({ processed := batch.length, enriched := e.2.1, staged := 0,
         errors := e.2.2 + e.1.length }, s1)
    else
      ({ processed := batch.length, enriched := e.2.1, staged := e.1.length,
         errors := e.2.2 },
       { s1 with pg := { s1.pg with staging := s1.pg.staging ++ e.1 },
                 events := s1.events ++ [Event.batch_staged e.1.length] })

/-- Modelled from the spec: the stored procedure
`promote_staging_to_production()` lives in the repository's SQL schema, which
is not among the source files; per the interface description it is a single
atomic server-side operation that moves all currently staged rows into the
durable tables and reports the moved count. -/
def promote_staging_to_production (pg : PgState) : Nat × PgState :=
  (pg.staging.length,
   { pg with staging := [], production := pg.production ++ pg.staging })

/-- `PipelineOrchestrator.promote_to_production` (pipeline.py, lines 269-298):
promote via the stored procedure; when the promoted count is positive, refresh
all materialized views and publish a `batch_promoted` event. -/
def promote_to_production (s : PipelineState) : Nat × PipelineState :=
  let r := promote_staging_to_production s.pg
  if r.1 > 0 then
    (r.1, { s with pg := { r.2 with viewRefreshes := r.2.viewRefreshes + 1 },
                   events := s.events ++ [Event.batch_promoted r.1] })
  else (r.1, { s with pg := r.2 })

/-- Concrete sample order used by witness instantiations. -/
def oSample : Order := ⟨"o1", "p1", "USD", "Z1", ""⟩

/-- Concrete pipeline state whose ingestion backpressure counter sits at the
threshold, used by witness instantiations. -/
def sThrottled : PipelineState :=
  ⟨⟨[], 0⟩, ⟨[], none⟩, [("ingestion", 5)], [], ⟨[], [], 0⟩⟩

/-- Concrete dedup window holding two entries and a recorded expiry deadline,
used by witness instantiations. -/
def dTwoEntries : DedupState := ⟨[("a", 0), ("b", 1)], some 99⟩

/-! Helper lemmas about the embedded operations. -/

lemma lookup_cons {β : Type} (k x : String) (v : β) (w : List (String × β)) :
    List.lookup x ((k, v) :: w) = if x = k then some v else List.lookup x w := by
  simp [List.lookup]
  split <;> simp_all

lemma card_insert_erase (t : Finset String) (a : String) :
    (insert a t).card = (t.erase a).card + 1 := by
  by_cases h : a ∈ t
  · rw [Finset.insert_eq_self.2 h, Finset.card_erase_add_one h]
  · rw [Finset.card_insert_of_not_mem h, Finset.erase_eq_of_not_mem h]

lemma hsetnx_fst (w : List (String × Nat)) (k : String) (v : Nat) :
    (hsetnx w k v).1 = !(List.lookup k w).isSome := by
  unfold hsetnx
  cases h : (List.lookup k w).isSome <;> simp [h]

lemma hsetnx_lookup_self (w : List (String × Nat)) (k : String) (v : Nat) :
    (List.lookup k (hsetnx w k v).2).isSome = true := by
  unfold hsetnx
  cases h : (List.lookup k w).isSome <;> simp [h, lookup_cons]

lemma hsetnx_lookup_mono {w : List (String × Nat)} {k : String} {v : Nat} {i : String}
    (h : (List.lookup i w).isSome = true) :
    (List.lookup i (hsetnx w k v).2).isSome = true := by
  unfold hsetnx
  cases hk : (List.lookup k w).isSome
  · by_cases hik : i = k <;> simp [hk, lookup_cons, hik, h]
  · simpa [hk] using h

lemma mark_seen_fst (now ttl : Nat) (rid : String) (d : DedupState) :
    (mark_seen now ttl rid d).1 = !(List.lookup rid d.window).isSome := by
  simpa [mark_seen] using hsetnx_fst d.window rid now

lemma mark_seen_window (now ttl : Nat) (rid : String) (d : DedupState) :
    (mark_seen now ttl rid d).2.window = (hsetnx d.window rid now).2 := rfl

lemma mark_seen_lookup_mono {now ttl : Nat} {rid i : String} {d : DedupState}
    (h : (List.lookup i d.window).isSome = true) :
    (List.lookup i (mark_seen now ttl rid d).2.window).isSome = true := by
  rw [mark_seen_window]
  exact hsetnx_lookup_mono h

lemma markAll_lookup_mono (now : Nat) (ids : List String)
    {w : List (String × Nat)} {i : String}
    (h : (List.lookup i w).isSome = true) :
    (List.lookup i (markAll now ids w).2).isSome = true := by
  induction ids generalizing w with
  | nil => simpa [markAll] using h
  | cons a rest ih =>
    simp only [markAll]
    exact ih (hsetnx_lookup_mono h)

lemma markAll_marks (now : Nat) (ids : List String) (w : List (String × Nat)) :
    ∀ rid ∈ ids, (List.lookup rid (markAll now ids w).2).isSome = true := by
  induction ids generalizing w with
  | nil => simp
  | cons a rest ih =>
    intro rid hr
    simp only [markAll]
    rcases List.mem_cons.mp hr with h | h
    · subst h
      exact markAll_lookup_mono now rest (hsetnx_lookup_self w rid now)
    · exact ih (hsetnx w a now).2 rid h

lemma markAll_count (now : Nat) (ids : List String) (w : List (String × Nat)) :
    (markAll now ids w).1
      = (ids.toFinset.filter fun x => List.lookup x w = none).card := by
  induction ids generalizing w with
  | nil => simp [markAll]
  | cons rid rest ih =>
    by_cases h : (List.lookup rid w).isSome
    · have hp : ¬ (List.lookup rid w = none) := by
        intro hn
        rw [hn] at h
        simp at h
      have heq : hsetnx w rid now = (false, w) := by
        unfold hsetnx
        simp [h]
      simp only [markAll, heq]
      rw [if_neg Bool.false_ne_true, List.toFinset_cons, Finset.filter_insert, if_neg hp]
      simpa using ih w
    · have hp : List.lookup rid w = none := by
        cases hL : List.lookup rid w with
        | none => rfl
        | some v => rw [hL] at h; simp at h
      have heq : hsetnx w rid now = (true, (rid, now) :: w) := by
        unfold hsetnx
        simp [hp]
      simp only [markAll, heq, if_true]
      rw [List.toFinset_cons, Finset.filter_insert, if_pos hp]
      rw [ih ((rid, now) :: w)]
      have hset : (rest.toFinset.filter fun x => List.lookup x ((rid, now) :: w) = none)
          = (rest.toFinset.filter fun x => List.lookup x w = none).erase rid := by
        ext x
        by_cases hx : x = rid <;>
          simp [Finset.mem_filter, Finset.mem_erase, lookup_cons, hx]
      rw [hset, card_insert_erase]
      omega

lemma drain_full {α : Type} (l : List α) :
    ∀ c : Int, (RedisQueue.drain l.length ⟨l, c⟩).1 = l.reverse := by
  induction l using List.reverseRecOn with
  | nil => intro c; simp [RedisQueue.drain]
  | append_singleton xs x ih =>
    intro c
    have h1 : (xs ++ [x]).length = xs.length + 1 := by simp
    rw [h1]
    have hpop : RedisQueue.pop (⟨xs ++ [x], c⟩ : RedisQueueState α)
        = (some x, ⟨xs, c - 1⟩) := by
      simp [RedisQueue.pop]
    simp only [RedisQueue.drain, hpop]
    simp [ih (c - 1)]

lemma enrichLoop_counts (c : Caches) (batch : List Order) :
    (enrichLoop c batch).2.1 + (enrichLoop c batch).2.2 = batch.length
    ∧ (enrichLoop c batch).1.length = (enrichLoop c batch).2.1 := by
  induction batch with
  | nil => simp [enrichLoop]
  | cons o rest ih =>
    cases h : enrich_order c o with
    | some r =>
      simp only [enrichLoop, h, List.length_cons]
      omega
    | none =>
      simp only [enrichLoop, h, List.length_cons]
      omega

lemma ingestLoop_not_in_new (now ttl : Nat) (orders : List Order) (d : DedupState)
    (i : String) (h : (List.lookup i d.window).isSome = true) :
    ∀ o ∈ (ingestLoop now ttl orders d).newOrders, o.order_id ≠ i := by
  induction orders generalizing d with
  | nil => simp [ingestLoop]
  | cons a rest ih =>
    intro o ho hoi
    simp only [ingestLoop] at ho
    by_cases ha : (mark_seen now ttl a.order_id d).1 = true
    · rw [if_pos ha] at ho
      rcases List.mem_cons.mp ho with rfl | hmem
      · rw [mark_seen_fst] at ha
        rw [hoi] at ha
        rw [h] at ha
        simp at ha
      · exact ih (mark_seen now ttl a.order_id d).2 (mark_seen_lookup_mono h) o hmem hoi
    · rw [if_neg ha] at ho
      exact ih (mark_seen now ttl a.order_id d).2 (mark_seen_lookup_mono h) o ho hoi

lemma ingestLoop_cons_dup (now ttl : Nat) (a : Order) (rest : List Order)
    (d : DedupState) :
    (ingestLoop now ttl (a :: rest) d).dupCount
      = (ingestLoop now ttl rest (mark_seen now ttl a.order_id d).2).dupCount
        + (if (mark_seen now ttl a.order_id d).1 then 0 else 1) := by
  simp only [ingestLoop]
  cases (mark_seen now ttl a.order_id d).1 <;> simp

lemma ingestLoop_dup_ge (now ttl : Nat) (orders : List Order) (d : DedupState) :
    orders.countP (fun o => (List.lookup o.order_id d.window).isSome)
      ≤ (ingestLoop now ttl orders d).dupCount := by
  induction orders generalizing d with
  | nil => simp [ingestLoop]
  | cons a rest ih =>
    have hmono : rest.countP (fun o => (List.lookup o.order_id d.window).isSome)
        ≤ rest.countP
            (fun o => (List.lookup o.order_id
              (mark_seen now ttl a.order_id d).2.window).isSome) :=
      List.countP_mono_left (fun o _ ho => mark_seen_lookup_mono ho)
    have hrest := ih (mark_seen now ttl a.order_id d).2
    rw [ingestLoop_cons_dup, List.countP_cons, mark_seen_fst]
    cases hA : (List.lookup a.order_id d.window).isSome
    · simp
      omega
    · simp
      omega

/-! Claim theorems. -/

/-- Claim C1: the spec asserts the queue's lifetime counter is monotonically
increasing — each push/pushBatch increments it and no operation (in
particular pop) ever decreases it.  The code refutes this: `RedisQueue.pop`
issues DECR on the counter key (redis_utils.py line 54), so pushing one job
onto a fresh queue and popping it brings the counter from 1 back to 0. -/
theorem queue_counter_decreases_on_pop :
    (RedisQueue.push "j" ({ items := [], counter := 0 } : RedisQueueState String)).counter = 1
    ∧ ((RedisQueue.pop
          (RedisQueue.push "j"
            ({ items := [], counter := 0 } : RedisQueueState String))).2).counter = 0 := by
  constructor
  · rfl
  · rfl

/-- Claim C9: for every non-empty batch passed to one `push_batch` call,
popping the queue repeatedly (with no interleaved pushes) returns first the
pre-existing entries and then the batch's records in the same relative order
they appeared in the batch (FIFO within a batch). -/
theorem push_batch_fifo {α : Type} (jobs : List α) (q : RedisQueueState α)
    (h : jobs ≠ []) :
    (RedisQueue.drain (jobs.length + q.items.length)
        (RedisQueue.push_batch jobs q)).1
      = q.items.reverse ++ jobs := by
  have hne : jobs.isEmpty = false := by
    cases jobs
    · exact absurd rfl h
    · rfl
  simp only [RedisQueue.push_batch, hne, Bool.false_eq_true, if_false]
  have hlen : jobs.length + q.items.length = (jobs.reverse ++ q.items).length := by
    simp [Nat.add_comm]
  rw [hlen]
  rw [drain_full (jobs.reverse ++ q.items) (q.counter + (jobs.length : Int))]
  simp

/-- Witness for C9 at a concrete batch and queue. -/
theorem push_batch_fifo_witness :
    (RedisQueue.drain 4
        (RedisQueue.push_batch ["a", "b", "c"]
          ({ items := ["x"], counter := 0 } : RedisQueueState String))).1
      = ["x", "a", "b", "c"] := by
  have h := push_batch_fifo ["a", "b", "c"]
      ({ items := ["x"], counter := 0 } : RedisQueueState String) (by simp)
  simpa using h

/-- Claim C7: `should_throttle` returns true exactly when the tracked depth is
at least the threshold, and after a decrement that brings the depth strictly
below the threshold it returns false. -/
theorem should_throttle_iff_depth_ge (bp : BackpressureState) (q : String)
    (m n : Int) :
    (should_throttle bp q m = true ↔ m ≤ get_depth bp q)
    ∧ (get_depth (bpDecrement bp q n) q < m →
        should_throttle (bpDecrement bp q n) q m = false) := by
  constructor
  · simp [should_throttle, ge_iff_le]
  · intro h
    simp only [should_throttle, ge_iff_le, decide_eq_false_iff_not]
    omega

/-- Witness for C7: depth 5 meets threshold 5; after decrement by 2 the
threshold check is false. -/
theorem should_throttle_iff_depth_ge_witness :
    should_throttle (bpDecrement [("x", 5)] "x" 2) "x" 5 = false :=
  (should_throttle_iff_depth_ge [("x", 5)] "x" 5 2).2 (by decide)

/-- Claim C5: an `ingest_orders` call made under backpressure rejects the
entire incoming set: the returned statistics carry queued = 0 and new = 0
while total equals the (nonzero) input size, and nothing is pushed onto the
queue. -/
theorem ingest_backpressure_rejects_all (now ttl : Nat) (maxDepth : Int)
    (orders : List Order) (s : PipelineState) (hne : orders ≠ [])
    (hth : should_throttle s.backpressure "ingestion" maxDepth = true) :
    (ingest_orders now ttl maxDepth orders s).1
        = { total := orders.length, new := 0, duplicates := 0, queued := 0 }
    ∧ orders.length ≠ 0
    ∧ ((ingest_orders now ttl maxDepth orders s).2).ingestionQueue
        = s.ingestionQueue := by
  refine ⟨?_, ?_, ?_⟩
  · simp [ingest_orders, hth]
  · intro h0
    exact hne (List.length_eq_zero.mp h0)
  · simp [ingest_orders, hth]

/-- Witness for C5 at a concrete throttled state and a one-order input. -/
theorem ingest_backpressure_rejects_all_witness :
    (ingest_orders 0 10 5 [oSample] sThrottled).1
        = { total := 1, new := 0, duplicates := 0, queued := 0 }
    ∧ (1 : Nat) ≠ 0
    ∧ ((ingest_orders 0 10 5 [oSample] sThrottled).2).ingestionQueue
        = sThrottled.ingestionQueue := by
  have h := ingest_backpressure_rejects_all 0 10 5 [oSample] sThrottled
      (by simp) (by decide)
  exact ⟨h.1, h.2.1, h.2.2⟩

/-- Claim C10: a backpressure rejection in `ingest_orders` leaves the whole
pipeline state unchanged — no id is marked seen, the queue contents and its
counter are untouched, and the backpressure counter is not incremented. -/
theorem ingest_backpressure_leaves_state_unchanged (now ttl : Nat)
    (maxDepth : Int) (orders : List Order) (s : PipelineState)
    (hth : should_throttle s.backpressure "ingestion" maxDepth = true) :
    (ingest_orders now ttl maxDepth orders s).2 = s := by
  simp [ingest_orders, hth]

/-- Witness for C10 at a concrete throttled state. -/
theorem ingest_backpressure_leaves_state_unchanged_witness :
    (ingest_orders 1 10 5 [oSample] sThrottled).2 = sThrottled :=
  ingest_backpressure_leaves_state_unchanged 1 10 5 [oSample] sThrottled
    (by decide)

/-- Counterexample for C2: starting from the window created by a first
markSeen (expiry horizon 3600), later operations on the non-empty window move
the horizon, so the expiry time does not remain the one fixed when the first
entry was created: a markBatch EXPIREs the hash again (horizon 3700), and a
markSeen that re-marks the sole existing entry also EXPIREs it again because
HLEN is still 1 after the call (horizon 3650). -/
theorem dedup_expiry_moved_counterexample :
    (((mark_batch 100 3600 ["b"] ((mark_seen 0 3600 "a" ⟨[], none⟩).2)).2).expireAt
        ≠ ((mark_seen 0 3600 "a" ⟨[], none⟩).2).expireAt)
    ∧ (((mark_seen 50 3600 "a" ((mark_seen 0 3600 "a" ⟨[], none⟩).2)).2).expireAt
        ≠ ((mark_seen 0 3600 "a" ⟨[], none⟩).2).expireAt) := by
  constructor
  · decide
  · decide

/-- Claim C2 (amended): markSeen resets the expiry horizon to now + ttl
exactly when the window holds one entry after the call (first insertion after
empty, or re-marking the sole existing entry) and preserves it when at least
two entries remain; markBatch resets the horizon to now + ttl on every
non-empty call. -/
theorem dedup_expiry_amended (now ttl : Nat) (rid : String) (d : DedupState)
    (ids : List String) :
    (((mark_seen now ttl rid d).2).window.length = 1 →
       ((mark_seen now ttl rid d).2).expireAt = some (now + ttl))
    ∧ (2 ≤ ((mark_seen now ttl rid d).2).window.length →
       ((mark_seen now ttl rid d).2).expireAt = d.expireAt)
    ∧ (ids ≠ [] → ((mark_batch now ttl ids d).2).expireAt = some (now + ttl)) := by
  refine ⟨?_, ?_, ?_⟩
  · intro h
    have hone : (hsetnx d.window rid now).2.length = 1 := by
      rw [mark_seen_window] at h
      exact h
    simp only [mark_seen]
    rw [if_pos hone]
  · intro h
    have hlen : ((mark_seen now ttl rid d).2).window.length
        = (hsetnx d.window rid now).2.length := by
      rw [mark_seen_window]
    have hne : ¬ ((hsetnx d.window rid now).2.length = 1) := by
      rw [hlen] at h
      omega
    simp only [mark_seen]
    rw [if_neg hne]
  · intro h
    cases ids with
    | nil => exact absurd rfl h
    | cons a rest => rfl

/-- Witness for C2 (amended): a first markSeen on an empty window sets the
deadline to 15; on a two-entry window with recorded deadline 99, markSeen of
a fresh id preserves the deadline while markBatch moves it to 15. -/
theorem dedup_expiry_amended_witness :
    ((mark_seen 5 10 "x" ⟨[], none⟩).2).expireAt = some 15
    ∧ ((mark_seen 5 10 "c" dTwoEntries).2).expireAt = some 99
    ∧ ((mark_batch 5 10 ["d"] dTwoEntries).2).expireAt = some 15 := by
  refine ⟨?_, ?_, ?_⟩
  · exact (dedup_expiry_amended 5 10 "x" ⟨[], none⟩ ["d"]).1 (by decide)
  · exact (dedup_expiry_amended 5 10 "c" dTwoEntries ["d"]).2.1 (by decide)
  · exact (dedup_expiry_amended 5 10 "c" dTwoEntries ["d"]).2.2 (by simp)

/-- Claim C6: `promote_to_production` reports the staged row count, and
triggers the aggregate-view refresh and publishes a `batch_promoted` event
exactly when that count is nonzero; with zero staged rows it returns 0 and
leaves the state (views, events) untouched. -/
theorem promote_refresh_and_event_iff_nonzero (s : PipelineState) :
    (promote_to_production s).1 = s.pg.staging.length
    ∧ ((promote_to_production s).2).pg.viewRefreshes
        = (if s.pg.staging.length = 0 then s.pg.viewRefreshes
           else s.pg.viewRefreshes + 1)
    ∧ ((promote_to_production s).2).events
        = (if s.pg.staging.length = 0 then s.events
           else s.events ++ [Event.batch_promoted s.pg.staging.length])
    ∧ (s.pg.staging.length = 0 → (promote_to_production s).2 = s) := by
  obtain ⟨q, d, bp, ev, pg⟩ := s
  obtain ⟨st, pr, vr⟩ := pg
  by_cases h : st.length = 0
  · have hnil : st = [] := List.length_eq_zero.mp h
    subst hnil
    simp [promote_to_production, promote_staging_to_production]
  · have hpos : 0 < st.length := Nat.pos_of_ne_zero h
    simp [promote_to_production, promote_staging_to_production, h, hpos]

/-- Witness for C6 at a concrete state with empty staging. -/
theorem promote_refresh_and_event_iff_nonzero_witness :
    (promote_to_production sThrottled).2 = sThrottled :=
  (promote_refresh_and_event_iff_nonzero sThrottled).2.2.2 rfl

/-- Claim C8: `mark_batch` marks every identifier of the list in the window
and returns exactly the number of (distinct) identifiers that were not
already present before the call. -/
theorem mark_batch_marks_all_and_counts_new (now ttl : Nat) (ids : List String)
    (d : DedupState) :
    (∀ rid ∈ ids,
        (List.lookup rid ((mark_batch now ttl ids d).2).window).isSome = true)
    ∧ (mark_batch now ttl ids d).1
        = (ids.toFinset.filter fun rid => List.lookup rid d.window = none).card := by
  cases ids with
  | nil => simp [mark_batch]
  | cons a rest =>
    constructor
    · intro rid hr
      have hwin : ((mark_batch now ttl (a :: rest) d).2).window
          = (markAll now (a :: rest) d.window).2 := rfl
      rw [hwin]
      exact markAll_marks now (a :: rest) d.window rid hr
    · have hfst : (mark_batch now ttl (a :: rest) d).1
          = (markAll now (a :: rest) d.window).1 := rfl
      rw [hfst, markAll_count]

/-- Witness for C8: marking the batch ["a", "b", "a"] over a window already
holding "a" leaves "a" present. -/
theorem mark_batch_marks_all_and_counts_new_witness :
    (List.lookup "a"
        ((mark_batch 7 10 ["a", "b", "a"] dTwoEntries).2).window).isSome = true :=
  (mark_batch_marks_all_and_counts_new 7 10 ["a", "b", "a"] dTwoEntries).1 "a"
    (by simp)

/-- Claim C3: for every batch processed by the worker, the returned
statistics satisfy staged + errors = processed, in the success branch and in
the bulk-staging-failure branch alike — no drained record vanishes from the
accounting. -/
theorem process_batch_accounting (batchSize : Nat) (c : Caches)
    (stagingFails : Bool) (s : PipelineState) :
    ((process_batch batchSize c stagingFails s).1).staged
      + ((process_batch batchSize c stagingFails s).1).errors
      = ((process_batch batchSize c stagingFails s).1).processed := by
  have hc := enrichLoop_counts c (RedisQueue.drain batchSize s.ingestionQueue).1
  simp only [process_batch]
  split
  · next hEmpty =>
      have hnil : (RedisQueue.drain batchSize s.ingestionQueue).1 = [] := by
        simpa [List.isEmpty_iff] using hEmpty
      simp [hnil]
  · next hNE =>
      split
      · next h2 =>
          have h20 : (enrichLoop c (RedisQueue.drain batchSize s.ingestionQueue).1).1
              = [] := by
            simpa [List.isEmpty_iff] using h2
          have h21 : (enrichLoop c (RedisQueue.drain batchSize s.ingestionQueue).1).1.length
              = 0 := by
            rw [h20]
            rfl
          simp only []
          omega
      · next h2 =>
          split
          · next hf =>
              simp only []
              omega
          · next hf =>
              simp only []
              omega

/-- Claim C4: once markSeen has returned true for an id within the active
window, a second markSeen of the same id returns false; `ingest_orders` never
appends a record whose id is already in the window to the batch it pushes
onto the ingestion queue, and every such record in the input is counted as a
duplicate. -/
theorem dedup_blocks_resubmission (n1 n2 t1 t2 : Nat) (rid : String)
    (d : DedupState) (now ttl : Nat) (maxDepth : Int) (orders : List Order)
    (s : PipelineState) (o : Order) :
    ((mark_seen n1 t1 rid d).1 = true →
       (mark_seen n2 t2 rid (mark_seen n1 t1 rid d).2).1 = false)
    ∧ ((List.lookup o.order_id s.dedup.window).isSome = true →
        o ∉ s.ingestionQueue.items →
        o ∉ ((ingest_orders now ttl maxDepth orders s).2).ingestionQueue.items)
    ∧ (should_throttle s.backpressure "ingestion" maxDepth = false →
        orders.countP
            (fun o2 => (List.lookup o2.order_id s.dedup.window).isSome)
          ≤ ((ingest_orders now ttl maxDepth orders s).1).duplicates) := by
  refine ⟨?_, ?_, ?_⟩
  · intro _
    rw [mark_seen_fst, mark_seen_window, hsetnx_lookup_self]
    rfl
  · intro hseen hnotin hmem
    by_cases hth : should_throttle s.backpressure "ingestion" maxDepth = true
    · simp only [ingest_orders, hth, if_true] at hmem
      exact hnotin hmem
    · have hth' : should_throttle s.backpressure "ingestion" maxDepth = false := by
        cases hsf : should_throttle s.backpressure "ingestion" maxDepth
        · rfl
        · exact absurd hsf hth
      simp only [ingest_orders, hth', Bool.false_eq_true, if_false] at hmem
      cases hN : (ingestLoop now ttl orders s.dedup).newOrders.isEmpty
      · simp only [hN, Bool.false_eq_true, if_false] at hmem
        simp only [RedisQueue.push_batch, hN, Bool.false_eq_true, if_false] at hmem
        rcases List.mem_append.mp hmem with hrev | hold
        · exact ingestLoop_not_in_new now ttl orders s.dedup o.order_id hseen o
            (List.mem_reverse.mp hrev) rfl
        · exact hnotin hold
      · simp only [hN, if_true] at hmem
        exact hnotin hmem
  · intro hth
    simp only [ingest_orders, hth, Bool.false_eq_true, if_false]
    cases hN : (ingestLoop now ttl orders s.dedup).newOrders.isEmpty
    · simp only [hN, Bool.false_eq_true, if_false]
      exact ingestLoop_dup_ge now ttl orders s.dedup
    · simp only [hN, if_true]
      exact ingestLoop_dup_ge now ttl orders s.dedup

/-- Witness for C4: marking "r" twice on an empty window, the second call
returns false. -/
theorem dedup_blocks_resubmission_witness :
    (mark_seen 1 10 "r" (mark_seen 0 10 "r" ⟨[], none⟩).2).1 = false :=
  (dedup_blocks_resubmission 0 1 10 10 "r" ⟨[], none⟩ 0 10 5 [] sThrottled
      oSample).1 (by decide)
